import Mathlib

/-!
Verification development for the penguin sliding game
(src/penguin_slide.py): terrain height-field and the penguin's
grounded/airborne locomotion simulator.

Floats are modelled as real numbers; `math.sin`, `math.cos`,
`math.atan`, `math.hypot` become `Real.sin`, `Real.cos`,
`Real.arctan`, `Real.sqrt (x^2 + y^2)`.  The `terrain` field of the
Python `Penguin` dataclass is passed as an explicit parameter (it is
immutable), and the write-only `prev_slope` attribute (assigned at
lines 74 and 83, never read anywhere) is omitted from the state.
-/

noncomputable section

open Classical

-- Physics tuning constants (penguin_slide.py lines 21-32).

def GRAVITY : ℝ := 1800.0

def BASE_SCROLL_SPEED : ℝ := 260.0

def SLIDE_GRAVITY_MULT : ℝ := 1.65

def GROUND_DRAG : ℝ := 0.35

def AIR_DRAG : ℝ := 0.04

def RELEASE_POP : ℝ := 220.0

def PERFECT_CHARGE_RATE : ℝ := 1.6

def PERFECT_DECAY : ℝ := 0.4

def PERFECT_DOWNHILL_SLOPE : ℝ := -0.3

def PERFECT_RELEASE_SLOPE : ℝ := 0.08

def PERFECT_BOOST : ℝ := 180.0

def MIN_LAUNCH_SPEED : ℝ := 140.0

/-- Terrain: a base height plus a list of sine waves
`(amplitude, wavelength, phase)` (lines 35-46).  The pseudorandom
construction is not modelled; the wave list is arbitrary. -/
structure Terrain where
  base_height : ℝ
  waves : List (ℝ × ℝ × ℝ)

/-- `Terrain.height` (lines 48-52): running sum over the waves of
`amplitude * sin(x / wavelength * tau + phase)` starting from
`base_height`. -/
def Terrain.height (t : Terrain) (x : ℝ) : ℝ :=
  t.waves.foldl
    (fun y w => y + w.1 * Real.sin (x / w.2.1 * (2 * Real.pi) + w.2.2))
    t.base_height

/-- `Terrain.slope` (lines 54-58): running sum over the waves of
`amplitude * cos(x / wavelength * tau + phase) * (tau / wavelength)`
starting from `0`. -/
def Terrain.slope (t : Terrain) (x : ℝ) : ℝ :=
  t.waves.foldl
    (fun dy w =>
      dy + w.1 * Real.cos (x / w.2.1 * (2 * Real.pi) + w.2.2) *
        ((2 * Real.pi) / w.2.1))
    0

/-- The penguin's kinematic state (dataclass fields, lines 61-75). -/
@[ext]
structure Penguin where
  world_x : ℝ
  y : ℝ
  vx : ℝ
  vy : ℝ
  speed_along_ground : ℝ
  on_ground : Bool
  perfect_charge : ℝ
  was_holding : Bool

namespace Penguin

/-- Initial state (dataclass defaults plus `__post_init__`,
lines 61-75): positioned on the terrain surface. -/
def init (t : Terrain) : Penguin :=
  { world_x := 120.0
    y := t.height 120.0
    vx := BASE_SCROLL_SPEED
    vy := 0
    speed_along_ground := BASE_SCROLL_SPEED
    on_ground := true
    perfect_charge := 0
    was_holding := false }

/-- `_launch_from_slope` (lines 155-163): convert ground speed
(floored to `MIN_LAUNCH_SPEED`) into world velocity along the
tangent, minus the upward pop. -/
def launch_from_slope (p : Penguin) (slope : ℝ) : Penguin :=
  let angle := Real.arctan slope
  let speed := max p.speed_along_ground MIN_LAUNCH_SPEED
  { p with
      vx := speed * Real.cos angle
      vy := speed * Real.sin angle - RELEASE_POP
      on_ground := false }

/-- `_stick_to_ground` (lines 165-173): reproject the world velocity
onto the terrain tangent; the new ground speed is the incoming
magnitude floored to 20. -/
def stick_to_ground (p : Penguin) (slope : ℝ) : Penguin :=
  let angle := Real.arctan slope
  let speed := max 20.0 (Real.sqrt (p.vx ^ 2 + p.vy ^ 2))
  { p with
      speed_along_ground := speed
      vx := speed * Real.cos angle
      vy := speed * Real.sin angle
      on_ground := true }

/-- The ground speed after one grounded tick's physics (lines
93-105): gravity along the slope (amplified while holding), uphill
penalty, proportional drag, then the floor at 20. -/
def groundSpeed (t : Terrain) (p : Penguin) (dt : ℝ) (holding : Bool) : ℝ :=
  let slope := t.slope p.world_x
  let gravity_along := GRAVITY * Real.sin (Real.arctan slope)
  let accel := if holding then gravity_along * SLIDE_GRAVITY_MULT else gravity_along
  let s1 := p.speed_along_ground + accel * dt
  let s2 := if slope > 0 then s1 - slope * 120.0 * dt else s1
  max 20.0 (s2 - s2 * GROUND_DRAG * dt)

/-- The perfect charge after one grounded tick (lines 112-116):
charge up while holding on a steep downhill, otherwise decay, clamped
to `[0, 1]`. -/
def chargeNext (t : Terrain) (p : Penguin) (dt : ℝ) (holding : Bool) : ℝ :=
  if holding = true ∧ t.slope p.world_x < PERFECT_DOWNHILL_SLOPE then
    min 1.0 (p.perfect_charge + PERFECT_CHARGE_RATE * dt)
  else
    max 0.0 (p.perfect_charge - PERFECT_DECAY * dt)

/-- The grounded state after the physics of `_update_ground`
(lines 85-116), before the launch checks. -/
def groundBase (t : Terrain) (p : Penguin) (dt : ℝ) (holding : Bool) : Penguin :=
  let angle := Real.arctan (t.slope p.world_x)
  let s := groundSpeed t p dt holding
  { p with
      speed_along_ground := s
      vx := s * Real.cos angle
      vy := s * Real.sin angle
      world_x := p.world_x + s * Real.cos angle * dt
      y := t.height p.world_x
      perfect_charge := chargeNext t p dt holding }

/-- The perfect-release launch condition (lines 119-120): input
released on the edge with enough charge on a near-flat slope. -/
def perfectCond (t : Terrain) (p : Penguin) (dt : ℝ) (holding : Bool) : Prop :=
  holding = false ∧ p.was_holding = true ∧
    0.15 < chargeNext t p dt holding ∧
    |t.slope p.world_x| ≤ PERFECT_RELEASE_SLOPE

/-- The crest launch condition (line 127): input not held, slope
above the near-flat threshold, ground speed above the minimum. -/
def crestCond (t : Terrain) (p : Penguin) (dt : ℝ) (holding : Bool) : Prop :=
  holding = false ∧ -0.02 < t.slope p.world_x ∧
    MIN_LAUNCH_SPEED < groundSpeed t p dt holding

/-- `_update_ground` (lines 85-129): physics, then the perfect
release (boost + charge reset + launch), then the crest launch. -/
def update_ground (t : Terrain) (p : Penguin) (dt : ℝ) (holding : Bool) : Penguin :=
  if perfectCond t p dt holding then
    launch_from_slope
      { groundBase t p dt holding with
          speed_along_ground :=
            groundSpeed t p dt holding + PERFECT_BOOST * chargeNext t p dt holding
          perfect_charge := 0 }
      (t.slope p.world_x)
  else if crestCond t p dt holding then
    launch_from_slope (groundBase t p dt holding) (t.slope p.world_x)
  else
    groundBase t p dt holding

/-- Vertical velocity after integrating gravity and the optional dive
term (lines 132-135). -/
def airVy (p : Penguin) (dt : ℝ) (holding : Bool) : ℝ :=
  if holding then p.vy + GRAVITY * dt + GRAVITY * 0.3 * dt
  else p.vy + GRAVITY * dt

/-- Horizontal velocity after air drag (line 137). -/
def airVx (p : Penguin) (dt : ℝ) : ℝ :=
  p.vx - p.vx * AIR_DRAG * dt

/-- Horizontal position after one airborne tick (line 139). -/
def airX (p : Penguin) (dt : ℝ) : ℝ :=
  p.world_x + airVx p dt * dt

/-- Vertical position after one airborne tick (line 140). -/
def airY (p : Penguin) (dt : ℝ) (holding : Bool) : ℝ :=
  p.y + airVy p dt holding * dt

/-- The landing condition (line 143): integrated position reaches or
passes the terrain height while the integrated vy is non-negative. -/
def landCond (t : Terrain) (p : Penguin) (dt : ℝ) (holding : Bool) : Prop :=
  t.height (airX p dt) ≤ airY p dt holding ∧ 0 ≤ airVy p dt holding

/-- The airborne state after the ballistic integration (lines
131-140), before the landing check. -/
def airBase (p : Penguin) (dt : ℝ) (holding : Bool) : Penguin :=
  { p with
      vy := airVy p dt holding
      vx := airVx p dt
      world_x := airX p dt
      y := airY p dt holding }

/-- `_update_air` (lines 131-153): ballistic integration; on landing,
snap to the terrain and stick, relaunching immediately unless the
action is held (dive). -/
def update_air (t : Terrain) (p : Penguin) (dt : ℝ) (holding : Bool) : Penguin :=
  if landCond t p dt holding then
    if holding then
      stick_to_ground
        { airBase p dt holding with y := t.height (airX p dt) }
        (t.slope (airX p dt))
    else
      launch_from_slope
        (stick_to_ground
          { airBase p dt holding with y := t.height (airX p dt) }
          (t.slope (airX p dt)))
        (t.slope (airX p dt))
  else
    airBase p dt holding

/-- `update` (lines 77-83): dispatch on the mode, then record the
input for the next tick's release-edge detection. -/
def update (t : Terrain) (p : Penguin) (dt : ℝ) (holding : Bool) : Penguin :=
  let p1 := if p.on_ground then update_ground t p dt holding else update_air t p dt holding
  { p1 with was_holding := holding }

end Penguin

/-- States reachable from the initial state by update calls with
positive `dt` and arbitrary inputs. -/
inductive Reachable (t : Terrain) : Penguin → Prop
  | init : Reachable t (Penguin.init t)
  | step (p : Penguin) (dt : ℝ) (holding : Bool) :
      Reachable t p → 0 < dt → Reachable t (Penguin.update t p dt holding)

/-- Iterate the tick update a fixed number of times with a constant
`dt` and input. -/
def runTicks (t : Terrain) (dt : ℝ) (holding : Bool) : ℕ → Penguin → Penguin
  | 0, p => p
  | n + 1, p => runTicks t dt holding n (Penguin.update t p dt holding)

/-- A terrain is flat when every wave has amplitude zero. -/
def Terrain.Flat (t : Terrain) : Prop :=
  ∀ w ∈ t.waves, w.1 = 0

/-- A concrete flat terrain (base height `540 * 0.65 = 351`, one wave
of amplitude zero). -/
def flatT : Terrain :=
  { base_height := 351, waves := [(0, 400, 0)] }

-- Concrete states used to instantiate the theorems.

/-- A grounded state resting on the concrete flat terrain at the speed
floor. -/
def sG : Penguin :=
  { world_x := 0, y := 351, vx := 20, vy := 0, speed_along_ground := 20,
    on_ground := true, perfect_charge := 0, was_holding := false }

/-- An airborne state high above the concrete flat terrain. -/
def sAir : Penguin :=
  { world_x := 0, y := 0, vx := 100, vy := 0, speed_along_ground := 50,
    on_ground := false, perfect_charge := 0.3, was_holding := false }

/-- An airborne state exactly at the flat terrain surface, about to
land. -/
def s2c : Penguin :=
  { world_x := 0, y := 351, vx := 260, vy := 0, speed_along_ground := 260,
    on_ground := false, perfect_charge := 0, was_holding := false }

/-- A grounded state with a charged perfect meter and the input just
released: a perfect-release launch at low speed. -/
def s5 : Penguin :=
  { world_x := 0, y := 351, vx := 30, vy := 0, speed_along_ground := 30,
    on_ground := true, perfect_charge := 0.5, was_holding := true }

/-- A grounded state used for the negative-`dt` scenarios. -/
def sC9 : Penguin :=
  { world_x := 120, y := 351, vx := 20, vy := 0, speed_along_ground := 20,
    on_ground := true, perfect_charge := 0, was_holding := true }

/-- A grounded coasting state below the minimum launch speed. -/
def sC3w : Penguin :=
  { world_x := 0, y := 351, vx := 100, vy := 0, speed_along_ground := 100,
    on_ground := true, perfect_charge := 0, was_holding := false }

/-- An airborne state with the incoming velocity magnitude 5, below
the ground-speed floor. -/
def s34 : Penguin :=
  { world_x := 0, y := 351, vx := 3, vy := 4, speed_along_ground := 260,
    on_ground := false, perfect_charge := 0, was_holding := false }

/-- An airborne state with the incoming velocity magnitude 50, above
the ground-speed floor. -/
def s3040 : Penguin :=
  { world_x := 0, y := 351, vx := 30, vy := 40, speed_along_ground := 260,
    on_ground := false, perfect_charge := 0, was_holding := false }

-- Rewriting the running sums of `height` and `slope` as list sums.

lemma foldl_sin_eq (x : ℝ) :
    ∀ (l : List (ℝ × ℝ × ℝ)) (b : ℝ),
      l.foldl (fun y w => y + w.1 * Real.sin (x / w.2.1 * (2 * Real.pi) + w.2.2)) b =
        b + (l.map (fun w => w.1 * Real.sin (x / w.2.1 * (2 * Real.pi) + w.2.2))).sum := by
  intro l
  induction l with
  | nil => intro b; simp
  | cons w l ih =>
      intro b
      simp only [List.foldl_cons, List.map_cons, List.sum_cons, ih]
      ring

lemma foldl_cos_eq (x : ℝ) :
    ∀ (l : List (ℝ × ℝ × ℝ)) (b : ℝ),
      l.foldl
        (fun dy w =>
          dy + w.1 * Real.cos (x / w.2.1 * (2 * Real.pi) + w.2.2) * ((2 * Real.pi) / w.2.1)) b =
        b + (l.map
          (fun w => w.1 * Real.cos (x / w.2.1 * (2 * Real.pi) + w.2.2) * ((2 * Real.pi) / w.2.1))).sum := by
  intro l
  induction l with
  | nil => intro b; simp
  | cons w l ih =>
      intro b
      simp only [List.foldl_cons, List.map_cons, List.sum_cons, ih]
      ring

lemma Terrain.height_eq_sum (t : Terrain) (x : ℝ) :
    t.height x =
      t.base_height +
        (t.waves.map (fun w => w.1 * Real.sin (x / w.2.1 * (2 * Real.pi) + w.2.2))).sum := by
  unfold Terrain.height
  exact foldl_sin_eq x t.waves t.base_height

lemma Terrain.slope_eq_sum (t : Terrain) (x : ℝ) :
    t.slope x =
      (t.waves.map
        (fun w => w.1 * Real.cos (x / w.2.1 * (2 * Real.pi) + w.2.2) * ((2 * Real.pi) / w.2.1))).sum := by
  unfold Terrain.slope
  rw [foldl_cos_eq x t.waves 0, zero_add]

lemma Terrain.Flat.height_eq {t : Terrain} (ht : t.Flat) (x : ℝ) :
    t.height x = t.base_height := by
  rw [Terrain.height_eq_sum]
  have hz : (t.waves.map (fun w => w.1 * Real.sin (x / w.2.1 * (2 * Real.pi) + w.2.2))).sum = 0 := by
    apply List.sum_eq_zero
    intro y hy
    rw [List.mem_map] at hy
    obtain ⟨w, hw, rfl⟩ := hy
    rw [ht w hw]
    ring
  rw [hz, add_zero]

lemma Terrain.Flat.slope_eq {t : Terrain} (ht : t.Flat) (x : ℝ) :
    t.slope x = 0 := by
  rw [Terrain.slope_eq_sum]
  apply List.sum_eq_zero
  intro y hy
  rw [List.mem_map] at hy
  obtain ⟨w, hw, rfl⟩ := hy
  rw [ht w hw]
  ring

lemma flatT_flat : flatT.Flat := by
  intro w hw
  simp only [flatT, List.mem_singleton] at hw
  rw [hw]

-- Derivative of a single wave and of the wave sum.

lemma hasDerivAt_wave (A lam phi x : ℝ) :
    HasDerivAt (fun y => A * Real.sin (y / lam * (2 * Real.pi) + phi))
      (A * Real.cos (x / lam * (2 * Real.pi) + phi) * ((2 * Real.pi) / lam)) x := by
  have hu : HasDerivAt (fun y : ℝ => y / lam * (2 * Real.pi) + phi)
      (1 / lam * (2 * Real.pi)) x := by
    have h1 : HasDerivAt (fun y : ℝ => y / lam) (1 / lam) x := by
      simpa using (hasDerivAt_id x).div_const lam
    exact (h1.mul_const (2 * Real.pi)).add_const phi
  have hs : HasDerivAt (fun y : ℝ => Real.sin (y / lam * (2 * Real.pi) + phi))
      (Real.cos (x / lam * (2 * Real.pi) + phi) * (1 / lam * (2 * Real.pi))) x :=
    (Real.hasDerivAt_sin (x / lam * (2 * Real.pi) + phi)).comp x hu
  have h2 := hs.const_mul A
  convert h2 using 1
  ring

lemma hasDerivAt_wave_sum (l : List (ℝ × ℝ × ℝ)) (x : ℝ) :
    HasDerivAt
      (fun y => (l.map (fun w => w.1 * Real.sin (y / w.2.1 * (2 * Real.pi) + w.2.2))).sum)
      ((l.map (fun w => w.1 * Real.cos (x / w.2.1 * (2 * Real.pi) + w.2.2) * ((2 * Real.pi) / w.2.1))).sum)
      x := by
  induction l with
  | nil => simpa using hasDerivAt_const x (0 : ℝ)
  | cons w l ih =>
      simp only [List.map_cons, List.sum_cons]
      exact (hasDerivAt_wave w.1 w.2.1 w.2.2 x).add ih

namespace Penguin

-- Field lemmas for the small state transformers.

@[simp] lemma launch_world_x (p : Penguin) (s : ℝ) :
    (launch_from_slope p s).world_x = p.world_x := rfl

@[simp] lemma launch_y (p : Penguin) (s : ℝ) :
    (launch_from_slope p s).y = p.y := rfl

@[simp] lemma launch_speed (p : Penguin) (s : ℝ) :
    (launch_from_slope p s).speed_along_ground = p.speed_along_ground := rfl

@[simp] lemma launch_charge (p : Penguin) (s : ℝ) :
    (launch_from_slope p s).perfect_charge = p.perfect_charge := rfl

@[simp] lemma launch_on_ground (p : Penguin) (s : ℝ) :
    (launch_from_slope p s).on_ground = false := rfl

@[simp] lemma launch_vx (p : Penguin) (s : ℝ) :
    (launch_from_slope p s).vx =
      max p.speed_along_ground MIN_LAUNCH_SPEED * Real.cos (Real.arctan s) := rfl

@[simp] lemma launch_vy (p : Penguin) (s : ℝ) :
    (launch_from_slope p s).vy =
      max p.speed_along_ground MIN_LAUNCH_SPEED * Real.sin (Real.arctan s) - RELEASE_POP := rfl

@[simp] lemma stick_world_x (p : Penguin) (s : ℝ) :
    (stick_to_ground p s).world_x = p.world_x := rfl

@[simp] lemma stick_y (p : Penguin) (s : ℝ) :
    (stick_to_ground p s).y = p.y := rfl

@[simp] lemma stick_charge (p : Penguin) (s : ℝ) :
    (stick_to_ground p s).perfect_charge = p.perfect_charge := rfl

@[simp] lemma stick_on_ground (p : Penguin) (s : ℝ) :
    (stick_to_ground p s).on_ground = true := rfl

@[simp] lemma stick_speed (p : Penguin) (s : ℝ) :
    (stick_to_ground p s).speed_along_ground =
      max 20.0 (Real.sqrt (p.vx ^ 2 + p.vy ^ 2)) := rfl

@[simp] lemma stick_vx (p : Penguin) (s : ℝ) :
    (stick_to_ground p s).vx =
      max 20.0 (Real.sqrt (p.vx ^ 2 + p.vy ^ 2)) * Real.cos (Real.arctan s) := rfl

@[simp] lemma stick_vy (p : Penguin) (s : ℝ) :
    (stick_to_ground p s).vy =
      max 20.0 (Real.sqrt (p.vx ^ 2 + p.vy ^ 2)) * Real.sin (Real.arctan s) := rfl

@[simp] lemma groundBase_world_x (t : Terrain) (p : Penguin) (dt : ℝ) (h : Bool) :
    (groundBase t p dt h).world_x =
      p.world_x + groundSpeed t p dt h * Real.cos (Real.arctan (t.slope p.world_x)) * dt := rfl

@[simp] lemma groundBase_y (t : Terrain) (p : Penguin) (dt : ℝ) (h : Bool) :
    (groundBase t p dt h).y = t.height p.world_x := rfl

@[simp] lemma groundBase_speed (t : Terrain) (p : Penguin) (dt : ℝ) (h : Bool) :
    (groundBase t p dt h).speed_along_ground = groundSpeed t p dt h := rfl

@[simp] lemma groundBase_charge (t : Terrain) (p : Penguin) (dt : ℝ) (h : Bool) :
    (groundBase t p dt h).perfect_charge = chargeNext t p dt h := rfl

@[simp] lemma groundBase_on_ground (t : Terrain) (p : Penguin) (dt : ℝ) (h : Bool) :
    (groundBase t p dt h).on_ground = p.on_ground := rfl

@[simp] lemma groundBase_vx (t : Terrain) (p : Penguin) (dt : ℝ) (h : Bool) :
    (groundBase t p dt h).vx =
      groundSpeed t p dt h * Real.cos (Real.arctan (t.slope p.world_x)) := rfl

@[simp] lemma groundBase_vy (t : Terrain) (p : Penguin) (dt : ℝ) (h : Bool) :
    (groundBase t p dt h).vy =
      groundSpeed t p dt h * Real.sin (Real.arctan (t.slope p.world_x)) := rfl

@[simp] lemma airBase_world_x (p : Penguin) (dt : ℝ) (h : Bool) :
    (airBase p dt h).world_x = airX p dt := rfl

@[simp] lemma airBase_y (p : Penguin) (dt : ℝ) (h : Bool) :
    (airBase p dt h).y = airY p dt h := rfl

@[simp] lemma airBase_vx (p : Penguin) (dt : ℝ) (h : Bool) :
    (airBase p dt h).vx = airVx p dt := rfl

@[simp] lemma airBase_vy (p : Penguin) (dt : ℝ) (h : Bool) :
    (airBase p dt h).vy = airVy p dt h := rfl

@[simp] lemma airBase_speed (p : Penguin) (dt : ℝ) (h : Bool) :
    (airBase p dt h).speed_along_ground = p.speed_along_ground := rfl

@[simp] lemma airBase_charge (p : Penguin) (dt : ℝ) (h : Bool) :
    (airBase p dt h).perfect_charge = p.perfect_charge := rfl

@[simp] lemma airBase_on_ground (p : Penguin) (dt : ℝ) (h : Bool) :
    (airBase p dt h).on_ground = p.on_ground := rfl

-- Branch lemmas for the dispatching updates.

lemma update_of_ground (t : Terrain) (p : Penguin) (dt : ℝ) (h : Bool)
    (hg : p.on_ground = true) :
    update t p dt h = { update_ground t p dt h with was_holding := h } := by
  simp [update, hg]

lemma update_of_air (t : Terrain) (p : Penguin) (dt : ℝ) (h : Bool)
    (hg : p.on_ground = false) :
    update t p dt h = { update_air t p dt h with was_holding := h } := by
  simp [update, hg]

lemma update_ground_of_perfect (t : Terrain) (p : Penguin) (dt : ℝ) (h : Bool)
    (hP : perfectCond t p dt h) :
    update_ground t p dt h =
      launch_from_slope
        { groundBase t p dt h with
            speed_along_ground :=
              groundSpeed t p dt h + PERFECT_BOOST * chargeNext t p dt h
            perfect_charge := 0 }
        (t.slope p.world_x) := by
  unfold update_ground
  rw [if_pos hP]

lemma update_ground_of_crest (t : Terrain) (p : Penguin) (dt : ℝ) (h : Bool)
    (hP : ¬ perfectCond t p dt h) (hC : crestCond t p dt h) :
    update_ground t p dt h =
      launch_from_slope (groundBase t p dt h) (t.slope p.world_x) := by
  unfold update_ground
  rw [if_neg hP, if_pos hC]

lemma update_ground_of_no_launch (t : Terrain) (p : Penguin) (dt : ℝ) (h : Bool)
    (hP : ¬ perfectCond t p dt h) (hC : ¬ crestCond t p dt h) :
    update_ground t p dt h = groundBase t p dt h := by
  unfold update_ground
  rw [if_neg hP, if_neg hC]

lemma update_air_of_no_land (t : Terrain) (p : Penguin) (dt : ℝ) (h : Bool)
    (hL : ¬ landCond t p dt h) :
    update_air t p dt h = airBase p dt h := by
  unfold update_air
  rw [if_neg hL]

lemma update_air_of_land_dive (t : Terrain) (p : Penguin) (dt : ℝ)
    (hL : landCond t p dt true) :
    update_air t p dt true =
      stick_to_ground
        { airBase p dt true with y := t.height (airX p dt) }
        (t.slope (airX p dt)) := by
  unfold update_air
  rw [if_pos hL, if_pos rfl]

lemma update_air_of_land_bounce (t : Terrain) (p : Penguin) (dt : ℝ)
    (hL : landCond t p dt false) :
    update_air t p dt false =
      launch_from_slope
        (stick_to_ground
          { airBase p dt false with y := t.height (airX p dt) }
          (t.slope (airX p dt)))
        (t.slope (airX p dt)) := by
  unfold update_air
  rw [if_pos hL]
  simp

-- Flat-terrain simplifications of the grounded physics.

lemma groundSpeed_flat {t : Terrain} (ht : t.Flat) (p : Penguin) (dt : ℝ) (h : Bool) :
    groundSpeed t p dt h =
      max 20.0 (p.speed_along_ground - p.speed_along_ground * GROUND_DRAG * dt) := by
  unfold groundSpeed
  rw [ht.slope_eq]
  cases h <;>
    simp [Real.arctan_zero, Real.sin_zero, lt_irrefl]

lemma chargeNext_flat {t : Terrain} (ht : t.Flat) (p : Penguin) (dt : ℝ) (h : Bool) :
    chargeNext t p dt h = max 0.0 (p.perfect_charge - PERFECT_DECAY * dt) := by
  unfold chargeNext
  rw [if_neg]
  intro hc
  rw [ht.slope_eq] at hc
  have := hc.2
  norm_num [PERFECT_DOWNHILL_SLOPE] at this

lemma groundSpeed_dt_zero (t : Terrain) (p : Penguin) (h : Bool) :
    groundSpeed t p 0 h = max 20.0 p.speed_along_ground := by
  unfold groundSpeed
  split_ifs <;> simp

lemma chargeNext_dt_zero (t : Terrain) (p : Penguin) (h : Bool)
    (hc0 : 0 ≤ p.perfect_charge) (hc1 : p.perfect_charge ≤ 1) :
    chargeNext t p 0 h = p.perfect_charge := by
  unfold chargeNext
  split_ifs
  · rw [mul_zero, add_zero, min_eq_right (le_trans hc1 (by norm_num))]
  · rw [mul_zero, sub_zero, max_eq_right (le_trans (by norm_num) hc0)]

lemma chargeNext_nonneg (t : Terrain) (p : Penguin) (dt : ℝ) (h : Bool)
    (hc : 0 ≤ p.perfect_charge) (hdt : 0 ≤ dt) :
    0 ≤ chargeNext t p dt h := by
  unfold chargeNext
  split_ifs with hcond
  · refine le_min (by norm_num) ?_
    have : 0 ≤ PERFECT_CHARGE_RATE * dt := by
      apply mul_nonneg _ hdt
      norm_num [PERFECT_CHARGE_RATE]
    linarith
  · exact le_max_of_le_left (by norm_num)

lemma chargeNext_le_one (t : Terrain) (p : Penguin) (dt : ℝ) (h : Bool)
    (hc : p.perfect_charge ≤ 1) (hdt : 0 ≤ dt) :
    chargeNext t p dt h ≤ 1 := by
  unfold chargeNext
  split_ifs with hcond
  · exact le_trans (min_le_left _ _) (by norm_num)
  · refine max_le (by norm_num) ?_
    have : 0 ≤ PERFECT_DECAY * dt := by
      apply mul_nonneg _ hdt
      norm_num [PERFECT_DECAY]
    linarith

lemma update_charge_bounds (t : Terrain) (p : Penguin) (dt : ℝ) (h : Bool)
    (hdt : 0 ≤ dt) (hc0 : 0 ≤ p.perfect_charge) (hc1 : p.perfect_charge ≤ 1) :
    0 ≤ (update t p dt h).perfect_charge ∧ (update t p dt h).perfect_charge ≤ 1 := by
  by_cases hg : p.on_ground = true
  · rw [update_of_ground t p dt h hg]
    by_cases hP : perfectCond t p dt h
    · rw [update_ground_of_perfect t p dt h hP]
      norm_num
    · by_cases hC : crestCond t p dt h
      · rw [update_ground_of_crest t p dt h hP hC]
        simp only [launch_charge, groundBase_charge]
        exact ⟨chargeNext_nonneg t p dt h hc0 hdt, chargeNext_le_one t p dt h hc1 hdt⟩
      · rw [update_ground_of_no_launch t p dt h hP hC]
        simp only [groundBase_charge]
        exact ⟨chargeNext_nonneg t p dt h hc0 hdt, chargeNext_le_one t p dt h hc1 hdt⟩
  · rw [update_of_air t p dt h (by simpa using hg)]
    by_cases hL : landCond t p dt h
    · cases h with
      | true =>
          rw [update_air_of_land_dive t p dt hL]
          simpa using ⟨hc0, hc1⟩
      | false =>
          rw [update_air_of_land_bounce t p dt hL]
          simpa using ⟨hc0, hc1⟩
    · rw [update_air_of_no_land t p dt h hL]
      simpa using ⟨hc0, hc1⟩

lemma perfectCond_not_of_holding (t : Terrain) (p : Penguin) (dt : ℝ) :
    ¬ perfectCond t p dt true := by
  intro hc
  simpa using hc.1

lemma crestCond_not_of_holding (t : Terrain) (p : Penguin) (dt : ℝ) :
    ¬ crestCond t p dt true := by
  intro hc
  simpa using hc.1

lemma update_ground_of_holding (t : Terrain) (p : Penguin) (dt : ℝ) :
    update_ground t p dt true = groundBase t p dt true :=
  update_ground_of_no_launch t p dt true
    (perfectCond_not_of_holding t p dt) (crestCond_not_of_holding t p dt)

end Penguin

/-- C1: starting from the initial state (whose `perfect_charge` is 0),
across every sequence of update calls with positive `dt` and arbitrary
`holding_action` inputs, `perfect_charge` stays in the closed interval
`[0, 1]`. -/
theorem C1_perfect_charge_clamped (t : Terrain) (p : Penguin) (hp : Reachable t p) :
    0 ≤ p.perfect_charge ∧ p.perfect_charge ≤ 1 := by
  induction hp with
  | init => norm_num [Penguin.init]
  | step q dt h _ hdt ih =>
      exact Penguin.update_charge_bounds t q dt h (le_of_lt hdt) ih.1 ih.2

/-- C1 witness: the initial state on the concrete flat terrain is
reachable and its charge lies in `[0, 1]`. -/
theorem C1_perfect_charge_clamped_witness :
    0 ≤ (Penguin.init flatT).perfect_charge ∧ (Penguin.init flatT).perfect_charge ≤ 1 :=
  C1_perfect_charge_clamped flatT (Penguin.init flatT) (Reachable.init)

/-- C6: `Terrain.slope` is the exact analytic derivative of
`Terrain.height` at every horizontal coordinate, where `height` is the
base height plus the sum of `A * sin(2*pi*x/lambda + phi)` and `slope`
is the sum of `A * cos(2*pi*x/lambda + phi) * (2*pi/lambda)`. -/
theorem C6_slope_is_derivative_of_height (t : Terrain) (x : ℝ) :
    HasDerivAt t.height (t.slope x) x := by
  have hfun : t.height = fun y =>
      t.base_height +
        (t.waves.map (fun w => w.1 * Real.sin (y / w.2.1 * (2 * Real.pi) + w.2.2))).sum :=
    funext fun y => t.height_eq_sum y
  rw [hfun, t.slope_eq_sum x]
  exact (hasDerivAt_wave_sum t.waves x).const_add t.base_height

/-- C7: after any update call that leaves the actor Grounded,
`speed_along_ground` is at least the floor value 20. -/
theorem C7_ground_speed_floor (t : Terrain) (p : Penguin) (dt : ℝ) (h : Bool)
    (hG : (Penguin.update t p dt h).on_ground = true) :
    20 ≤ (Penguin.update t p dt h).speed_along_ground := by
  by_cases hg : p.on_ground = true
  · rw [Penguin.update_of_ground t p dt h hg] at hG ⊢
    by_cases hP : Penguin.perfectCond t p dt h
    · rw [Penguin.update_ground_of_perfect t p dt h hP] at hG
      simp at hG
    · by_cases hC : Penguin.crestCond t p dt h
      · rw [Penguin.update_ground_of_crest t p dt h hP hC] at hG
        simp at hG
      · rw [Penguin.update_ground_of_no_launch t p dt h hP hC]
        simp only [Penguin.groundBase_speed]
        show 20 ≤ Penguin.groundSpeed t p dt h
        unfold Penguin.groundSpeed
        exact le_max_of_le_left (by norm_num)
  · have hg' : p.on_ground = false := by simpa using hg
    rw [Penguin.update_of_air t p dt h hg'] at hG ⊢
    by_cases hL : Penguin.landCond t p dt h
    · cases h with
      | true =>
          rw [Penguin.update_air_of_land_dive t p dt hL]
          simp only [Penguin.stick_speed]
          exact le_max_of_le_left (by norm_num)
      | false =>
          rw [Penguin.update_air_of_land_bounce t p dt hL] at hG
          simp at hG
    · rw [Penguin.update_air_of_no_land t p dt h hL] at hG
      simp [hg'] at hG

/-- C7 witness: a tick on the flat terrain while holding keeps the
actor Grounded, and the resulting ground speed is at least 20. -/
theorem C7_ground_speed_floor_witness :
    20 ≤ (Penguin.update flatT sG (1/60) true).speed_along_ground := by
  apply C7_ground_speed_floor flatT sG (1/60) true
  rw [Penguin.update_of_ground flatT sG (1/60) true rfl,
    Penguin.update_ground_of_holding]
  rfl

/-- C10: an airborne tick in which the landing condition does not
trigger leaves `perfect_charge`, `speed_along_ground` and the mode
unchanged (the actor stays Airborne). -/
theorem C10_airborne_frame (t : Terrain) (p : Penguin) (dt : ℝ) (h : Bool)
    (hg : p.on_ground = false) (hL : ¬ Penguin.landCond t p dt h) :
    (Penguin.update t p dt h).perfect_charge = p.perfect_charge ∧
      (Penguin.update t p dt h).speed_along_ground = p.speed_along_ground ∧
      (Penguin.update t p dt h).on_ground = false := by
  rw [Penguin.update_of_air t p dt h hg, Penguin.update_air_of_no_land t p dt h hL]
  refine ⟨rfl, rfl, ?_⟩
  simpa using hg

/-- C10 witness: a concrete airborne state far above the flat terrain
keeps its charge, ground speed and Airborne mode over a tick. -/
theorem C10_airborne_frame_witness :
    (Penguin.update flatT sAir (1/60) false).perfect_charge = sAir.perfect_charge ∧
      (Penguin.update flatT sAir (1/60) false).speed_along_ground = sAir.speed_along_ground ∧
      (Penguin.update flatT sAir (1/60) false).on_ground = false := by
  apply C10_airborne_frame flatT sAir (1/60) false rfl
  intro hland
  have h1 := hland.1
  rw [flatT_flat.height_eq] at h1
  norm_num [Penguin.airY, Penguin.airVy, sAir, GRAVITY, flatT] at h1

/-- C2 (amended): when an airborne tick triggers the landing
condition, the resulting `y` equals the terrain height at the landing
`world_x`; the mode ends Grounded exactly when the action is held at
that tick (otherwise the actor immediately relaunches and ends the
tick Airborne, still with `y` on the terrain). -/
theorem C2_landing_snaps_y (t : Terrain) (p : Penguin) (dt : ℝ) (h : Bool)
    (hg : p.on_ground = false) (hL : Penguin.landCond t p dt h) :
    (Penguin.update t p dt h).y = t.height ((Penguin.update t p dt h).world_x) ∧
      (Penguin.update t p dt h).world_x = Penguin.airX p dt ∧
      (Penguin.update t p dt h).on_ground = h := by
  rw [Penguin.update_of_air t p dt h hg]
  cases h with
  | true =>
      rw [Penguin.update_air_of_land_dive t p dt hL]
      exact ⟨rfl, rfl, rfl⟩
  | false =>
      rw [Penguin.update_air_of_land_bounce t p dt hL]
      exact ⟨rfl, rfl, rfl⟩

/-- C2 counterexample: an airborne actor descending (`vy >= 0`) whose
integrated position passes the flat terrain height, with the action
not held, ends the update call Airborne (the code lands and
immediately relaunches), contradicting the claim that the mode is
Grounded after the call. -/
theorem C2_counterexample :
    s2c.on_ground = false ∧ 0 ≤ s2c.vy ∧
      Penguin.landCond flatT s2c (1/60) false ∧
      (Penguin.update flatT s2c (1/60) false).on_ground = false := by
  have hL : Penguin.landCond flatT s2c (1/60) false := by
    constructor
    · rw [flatT_flat.height_eq]
      norm_num [Penguin.airY, Penguin.airVy, s2c, GRAVITY, flatT]
    · norm_num [Penguin.airVy, s2c, GRAVITY]
  refine ⟨rfl, by norm_num [s2c], hL, ?_⟩
  rw [Penguin.update_of_air flatT s2c (1/60) false rfl,
    Penguin.update_air_of_land_bounce flatT s2c (1/60) hL]
  rfl

/-- C2 witness: the same landing with the action held ends the tick
Grounded with `y` exactly at the terrain height at the landing
`world_x`. -/
theorem C2_landing_snaps_y_witness :
    (Penguin.update flatT s2c (1/60) true).y =
        flatT.height ((Penguin.update flatT s2c (1/60) true).world_x) ∧
      (Penguin.update flatT s2c (1/60) true).on_ground = true := by
  have hL : Penguin.landCond flatT s2c (1/60) true := by
    constructor
    · rw [flatT_flat.height_eq]
      norm_num [Penguin.airY, Penguin.airVy, s2c, GRAVITY, flatT]
    · norm_num [Penguin.airVy, s2c, GRAVITY]
  have h := C2_landing_snaps_y flatT s2c (1/60) true rfl hL
  exact ⟨h.1, h.2.2⟩

/-- C3 counterexample: on the concrete flat terrain, the initial
state (forward speed 260) with `holding_action = false` launches on
the very first tick at `dt = 1/60` (slope 0 is above the `-0.02`
threshold and the dragged speed still exceeds 140), refuting the
claim that any grounded actor with nonzero forward speed stays
Grounded for 300 such ticks. -/
theorem C3_counterexample :
    (Penguin.init flatT).on_ground = true ∧
      (Penguin.update flatT (Penguin.init flatT) (1/60) false).on_ground = false := by
  have hP : ¬ Penguin.perfectCond flatT (Penguin.init flatT) (1/60) false := by
    intro hc
    have := hc.2.1
    simp [Penguin.init] at this
  have hC : Penguin.crestCond flatT (Penguin.init flatT) (1/60) false := by
    refine ⟨rfl, ?_, ?_⟩
    · rw [flatT_flat.slope_eq]
      norm_num
    · rw [Penguin.groundSpeed_flat flatT_flat]
      simp only [Penguin.init]
      rw [max_eq_right (by norm_num [BASE_SCROLL_SPEED, GROUND_DRAG])]
      norm_num [BASE_SCROLL_SPEED, GROUND_DRAG, MIN_LAUNCH_SPEED]
  refine ⟨rfl, ?_⟩
  rw [Penguin.update_of_ground flatT (Penguin.init flatT) (1/60) false rfl,
    Penguin.update_ground_of_crest flatT (Penguin.init flatT) (1/60) false hP hC]
  rfl

lemma flat_coast_step (t : Terrain) (ht : t.Flat) (p : Penguin)
    (hg : p.on_ground = true) (hsp : p.speed_along_ground ≤ 140)
    (hwh : p.was_holding = false) :
    (Penguin.update t p (1/60) false).on_ground = true ∧
      (Penguin.update t p (1/60) false).speed_along_ground ≤ 140 ∧
      (Penguin.update t p (1/60) false).was_holding = false := by
  have hgs : Penguin.groundSpeed t p (1/60) false ≤ 140 := by
    rw [Penguin.groundSpeed_flat ht]
    refine max_le (by norm_num) ?_
    rw [GROUND_DRAG]
    linarith
  have hP : ¬ Penguin.perfectCond t p (1/60) false := by
    intro hc
    have := hc.2.1
    rw [hwh] at this
    simp at this
  have hC : ¬ Penguin.crestCond t p (1/60) false := by
    intro hc
    have := hc.2.2
    rw [MIN_LAUNCH_SPEED] at this
    linarith
  rw [Penguin.update_of_ground t p (1/60) false hg,
    Penguin.update_ground_of_no_launch t p (1/60) false hP hC]
  exact ⟨by simpa using hg, hgs, rfl⟩

lemma flat_coast_invariant (t : Terrain) (ht : t.Flat) :
    ∀ (n : ℕ) (p : Penguin),
      p.on_ground = true → p.speed_along_ground ≤ 140 → p.was_holding = false →
      (runTicks t (1/60) false n p).on_ground = true ∧
        (runTicks t (1/60) false n p).speed_along_ground ≤ 140 ∧
        (runTicks t (1/60) false n p).was_holding = false := by
  intro n
  induction n with
  | zero => intro p hg hsp hwh; exact ⟨hg, hsp, hwh⟩
  | succ n ih =>
      intro p hg hsp hwh
      have hstep := flat_coast_step t ht p hg hsp hwh
      exact ih (Penguin.update t p (1/60) false) hstep.1 hstep.2.1 hstep.2.2

/-- C3 (amended): on flat terrain with `holding_action = false` at
`dt = 1/60`, a grounded actor remains Grounded after every tick
provided its forward speed does not exceed the minimum launch speed
140 (drag only shrinks the speed, so the crest launch condition never
fires); an actor faster than that (e.g. the initial 260) launches on
the first tick. -/
theorem C3_flat_terrain_stays_grounded (t : Terrain) (ht : t.Flat) (p : Penguin)
    (hg : p.on_ground = true) (hsp : p.speed_along_ground ≤ 140)
    (hwh : p.was_holding = false) (n : ℕ) :
    (runTicks t (1/60) false n p).on_ground = true :=
  (flat_coast_invariant t ht n p hg hsp hwh).1

/-- C3 witness: a concrete coasting state at speed 100 on the flat
terrain is still Grounded after 300 ticks. -/
theorem C3_flat_terrain_stays_grounded_witness :
    (runTicks flatT (1/60) false 300 sC3w).on_ground = true :=
  C3_flat_terrain_stays_grounded flatT flatT_flat sC3w rfl (by norm_num [sC3w]) rfl 300

/-- C4 counterexample: with `dt = 0`, the initial state on the flat
terrain still fires the crest launch (its speed 260 exceeds 140 and
the slope is 0), flipping the mode from Grounded to Airborne, so the
`dt = 0` tick is not a no-op on the state. -/
theorem C4_counterexample :
    (Penguin.init flatT).on_ground = true ∧
      (Penguin.update flatT (Penguin.init flatT) 0 false).on_ground = false := by
  have hP : ¬ Penguin.perfectCond flatT (Penguin.init flatT) 0 false := by
    intro hc
    have := hc.2.1
    simp [Penguin.init] at this
  have hC : Penguin.crestCond flatT (Penguin.init flatT) 0 false := by
    refine ⟨rfl, ?_, ?_⟩
    · rw [flatT_flat.slope_eq]
      norm_num
    · rw [Penguin.groundSpeed_dt_zero]
      simp only [Penguin.init]
      rw [max_eq_right (by norm_num [BASE_SCROLL_SPEED])]
      norm_num [BASE_SCROLL_SPEED, MIN_LAUNCH_SPEED]
  refine ⟨rfl, ?_⟩
  rw [Penguin.update_of_ground flatT (Penguin.init flatT) 0 false rfl,
    Penguin.update_ground_of_crest flatT (Penguin.init flatT) 0 false hP hC]
  rfl

/-- C4 (amended): a `dt = 0` tick changes nothing but
`was_holding_action`, provided the state is self-consistent (grounded:
`y` on the terrain, velocity along the tangent, speed at the floor or
above, charge in `[0, 1]`) and no mode transition fires at the current
state; an inconsistent state is renormalised and a pending launch or
landing transition still fires even at `dt = 0`. -/
theorem C4_dt_zero_frame (t : Terrain) (p : Penguin) (h : Bool) :
    (p.on_ground = true →
      p.y = t.height p.world_x →
      p.vx = p.speed_along_ground * Real.cos (Real.arctan (t.slope p.world_x)) →
      p.vy = p.speed_along_ground * Real.sin (Real.arctan (t.slope p.world_x)) →
      20 ≤ p.speed_along_ground →
      0 ≤ p.perfect_charge → p.perfect_charge ≤ 1 →
      ¬ Penguin.perfectCond t p 0 h → ¬ Penguin.crestCond t p 0 h →
      Penguin.update t p 0 h = { p with was_holding := h }) ∧
    (p.on_ground = false →
      ¬ Penguin.landCond t p 0 h →
      Penguin.update t p 0 h = { p with was_holding := h }) := by
  constructor
  · intro hg hy hvx hvy hsp hc0 hc1 hP hC
    rw [Penguin.update_of_ground t p 0 h hg,
      Penguin.update_ground_of_no_launch t p 0 h hP hC]
    have hgs : Penguin.groundSpeed t p 0 h = p.speed_along_ground := by
      rw [Penguin.groundSpeed_dt_zero]
      exact max_eq_right (le_trans (by norm_num) hsp)
    have hcn : Penguin.chargeNext t p 0 h = p.perfect_charge :=
      Penguin.chargeNext_dt_zero t p h hc0 hc1
    apply Penguin.ext <;>
      simp [Penguin.groundBase, hgs, hcn, hy.symm, hvx.symm, hvy.symm]
  · intro hg hL
    rw [Penguin.update_of_air t p 0 h hg,
      Penguin.update_air_of_no_land t p 0 h hL]
    cases h with
    | true =>
        apply Penguin.ext <;>
          simp [Penguin.airBase, Penguin.airX, Penguin.airY, Penguin.airVx, Penguin.airVy]
    | false =>
        apply Penguin.ext <;>
          simp [Penguin.airBase, Penguin.airX, Penguin.airY, Penguin.airVx, Penguin.airVy]

/-- C4 witness: concrete consistent grounded and airborne states on
the flat terrain are unchanged by a `dt = 0` tick except for
`was_holding_action`. -/
theorem C4_dt_zero_frame_witness :
    Penguin.update flatT sG 0 true = { sG with was_holding := true } ∧
      Penguin.update flatT sAir 0 false = { sAir with was_holding := false } := by
  constructor
  · apply (C4_dt_zero_frame flatT sG true).1 rfl
    · show (351 : ℝ) = flatT.height 0
      rw [flatT_flat.height_eq]
      rfl
    · show (20 : ℝ) = 20 * Real.cos (Real.arctan (flatT.slope 0))
      rw [flatT_flat.slope_eq]
      simp
    · show (0 : ℝ) = 20 * Real.sin (Real.arctan (flatT.slope 0))
      rw [flatT_flat.slope_eq]
      simp
    · norm_num [sG]
    · norm_num [sG]
    · norm_num [sG]
    · exact Penguin.perfectCond_not_of_holding flatT sG 0
    · exact Penguin.crestCond_not_of_holding flatT sG 0
  · apply (C4_dt_zero_frame flatT sAir false).2 rfl
    intro hland
    have h1 := hland.1
    rw [flatT_flat.height_eq] at h1
    norm_num [Penguin.airY, Penguin.airVy, sAir, flatT] at h1

-- Concrete evaluations at the perfect-release state `s5`.

lemma s5_groundSpeed : Penguin.groundSpeed flatT s5 (1/60) false = 1193/40 := by
  rw [Penguin.groundSpeed_flat flatT_flat]
  have hv : s5.speed_along_ground - s5.speed_along_ground * GROUND_DRAG * (1/60) = 1193/40 := by
    norm_num [s5, GROUND_DRAG]
  rw [hv, max_eq_right (by norm_num)]

lemma s5_chargeNext : Penguin.chargeNext flatT s5 (1/60) false = 37/75 := by
  rw [Penguin.chargeNext_flat flatT_flat]
  have hv : s5.perfect_charge - PERFECT_DECAY * (1/60) = 37/75 := by
    norm_num [s5, PERFECT_DECAY]
  rw [hv, max_eq_right (by norm_num)]

lemma s5_perfectCond : Penguin.perfectCond flatT s5 (1/60) false := by
  refine ⟨rfl, rfl, ?_, ?_⟩
  · rw [s5_chargeNext]
    norm_num
  · rw [flatT_flat.slope_eq]
    norm_num [PERFECT_RELEASE_SLOPE]

lemma init_flatT_not_perfect :
    ¬ Penguin.perfectCond flatT (Penguin.init flatT) (1/60) false := by
  intro hc
  have := hc.2.1
  simp [Penguin.init] at this

lemma init_flatT_crest :
    Penguin.crestCond flatT (Penguin.init flatT) (1/60) false := by
  refine ⟨rfl, ?_, ?_⟩
  · rw [flatT_flat.slope_eq]
    norm_num
  · rw [Penguin.groundSpeed_flat flatT_flat]
    simp only [Penguin.init]
    rw [max_eq_right (by norm_num [BASE_SCROLL_SPEED, GROUND_DRAG])]
    norm_num [BASE_SCROLL_SPEED, GROUND_DRAG, MIN_LAUNCH_SPEED]

/-- C5 (amended): on every Grounded-to-Airborne launch — the
perfect-release path (lines 119-124) or the crest path (lines
126-129) — the launch converts `v = max(ground speed at launch,
MIN_LAUNCH_SPEED)`, not the ground speed itself, into
`vx = v * cos(atan(slope))` and `vy = v * sin(atan(slope)) -
RELEASE_POP`; on the perfect-release path the ground speed at launch
is the post-drag speed boosted by `perfect_charge * PERFECT_BOOST`
and the charge is reset to 0, and on the crest path it is the
post-drag speed unchanged. -/
theorem C5_launch_velocity (t : Terrain) (p : Penguin) (dt : ℝ) (h : Bool)
    (hg : p.on_ground = true)
    (hL : Penguin.perfectCond t p dt h ∨ Penguin.crestCond t p dt h) :
    (Penguin.update t p dt h).on_ground = false ∧
      (Penguin.update t p dt h).vx =
        max (Penguin.update t p dt h).speed_along_ground MIN_LAUNCH_SPEED *
          Real.cos (Real.arctan (t.slope p.world_x)) ∧
      (Penguin.update t p dt h).vy =
        max (Penguin.update t p dt h).speed_along_ground MIN_LAUNCH_SPEED *
          Real.sin (Real.arctan (t.slope p.world_x)) - RELEASE_POP ∧
      (Penguin.perfectCond t p dt h →
        (Penguin.update t p dt h).speed_along_ground =
            Penguin.groundSpeed t p dt h +
              PERFECT_BOOST * Penguin.chargeNext t p dt h ∧
          (Penguin.update t p dt h).perfect_charge = 0) ∧
      (¬ Penguin.perfectCond t p dt h →
        (Penguin.update t p dt h).speed_along_ground = Penguin.groundSpeed t p dt h) := by
  by_cases hP : Penguin.perfectCond t p dt h
  · rw [Penguin.update_of_ground t p dt h hg,
      Penguin.update_ground_of_perfect t p dt h hP]
    exact ⟨rfl, rfl, rfl, fun _ => ⟨rfl, rfl⟩, fun hn => absurd hP hn⟩
  · have hC : Penguin.crestCond t p dt h := hL.resolve_left hP
    rw [Penguin.update_of_ground t p dt h hg,
      Penguin.update_ground_of_crest t p dt h hP hC]
    exact ⟨rfl, rfl, rfl, fun hp => absurd hp hP, fun _ => rfl⟩

/-- C5 counterexample: at a concrete perfect release whose boosted
ground speed is `949/8 = 118.625 < 140`, the launch uses the
`MIN_LAUNCH_SPEED` floor, so `vx = 140` differs from
`(ground speed at launch) * cos(atan(slope))`, refuting the claim's
formula with `v` equal to the ground speed. -/
theorem C5_counterexample :
    (Penguin.update flatT s5 (1/60) false).on_ground = false ∧
      (Penguin.update flatT s5 (1/60) false).speed_along_ground = 949/8 ∧
      (Penguin.update flatT s5 (1/60) false).vx = 140 ∧
      (Penguin.update flatT s5 (1/60) false).vx ≠
        (Penguin.update flatT s5 (1/60) false).speed_along_ground *
          Real.cos (Real.arctan
            (flatT.slope ((Penguin.update flatT s5 (1/60) false).world_x))) := by
  have hrw : Penguin.update flatT s5 (1/60) false =
      { Penguin.launch_from_slope
          { Penguin.groundBase flatT s5 (1/60) false with
              speed_along_ground :=
                Penguin.groundSpeed flatT s5 (1/60) false +
                  PERFECT_BOOST * Penguin.chargeNext flatT s5 (1/60) false
              perfect_charge := 0 }
          (flatT.slope s5.world_x) with was_holding := false } := by
    rw [Penguin.update_of_ground flatT s5 (1/60) false rfl,
      Penguin.update_ground_of_perfect flatT s5 (1/60) false s5_perfectCond]
  have hsp :
      Penguin.groundSpeed flatT s5 (1/60) false +
        PERFECT_BOOST * Penguin.chargeNext flatT s5 (1/60) false = 949/8 := by
    rw [s5_groundSpeed, s5_chargeNext, PERFECT_BOOST]
    norm_num
  have hspeed : (Penguin.update flatT s5 (1/60) false).speed_along_ground = 949/8 := by
    rw [hrw]
    exact hsp
  have hvx : (Penguin.update flatT s5 (1/60) false).vx = 140 := by
    rw [hrw]
    show max
        (Penguin.groundSpeed flatT s5 (1/60) false +
          PERFECT_BOOST * Penguin.chargeNext flatT s5 (1/60) false)
        MIN_LAUNCH_SPEED * Real.cos (Real.arctan (flatT.slope s5.world_x)) = 140
    rw [hsp, flatT_flat.slope_eq, Real.arctan_zero, Real.cos_zero, mul_one,
      max_eq_right (by norm_num [MIN_LAUNCH_SPEED])]
    norm_num [MIN_LAUNCH_SPEED]
  have hog : (Penguin.update flatT s5 (1/60) false).on_ground = false := by
    rw [hrw]
    rfl
  refine ⟨hog, hspeed, hvx, ?_⟩
  rw [flatT_flat.slope_eq, Real.arctan_zero, Real.cos_zero, mul_one, hvx, hspeed]
  norm_num

/-- C5 witness: both launch paths at concrete inputs — the perfect
release at `s5` resets the charge and ends Airborne, and the crest
launch from the initial state ends Airborne with the ground speed at
launch equal to the post-drag ground speed. -/
theorem C5_launch_velocity_witness :
    ((Penguin.update flatT s5 (1/60) false).perfect_charge = 0 ∧
        (Penguin.update flatT s5 (1/60) false).on_ground = false) ∧
      ((Penguin.update flatT (Penguin.init flatT) (1/60) false).on_ground = false ∧
        (Penguin.update flatT (Penguin.init flatT) (1/60) false).speed_along_ground =
          Penguin.groundSpeed flatT (Penguin.init flatT) (1/60) false) := by
  constructor
  · have h := C5_launch_velocity flatT s5 (1/60) false rfl (Or.inl s5_perfectCond)
    exact ⟨(h.2.2.2.1 s5_perfectCond).2, h.1⟩
  · have h := C5_launch_velocity flatT (Penguin.init flatT) (1/60) false rfl
      (Or.inr init_flatT_crest)
    exact ⟨h.1, h.2.2.2.2 init_flatT_not_perfect⟩

/-- C8 (amended): on landing, the new `speed_along_ground` is the
incoming magnitude `sqrt(vx^2 + vy^2)` floored to 20 — magnitude is
preserved exactly when it is at least 20 — and the new velocity is
that speed directed along the terrain tangent
`(cos(atan(s)), sin(atan(s)))`. -/
theorem C8_landing_reprojection (p : Penguin) (sl : ℝ) :
    (Penguin.stick_to_ground p sl).speed_along_ground =
        max 20.0 (Real.sqrt (p.vx ^ 2 + p.vy ^ 2)) ∧
      (Penguin.stick_to_ground p sl).vx =
        (Penguin.stick_to_ground p sl).speed_along_ground * Real.cos (Real.arctan sl) ∧
      (Penguin.stick_to_ground p sl).vy =
        (Penguin.stick_to_ground p sl).speed_along_ground * Real.sin (Real.arctan sl) ∧
      (Penguin.stick_to_ground p sl).on_ground = true ∧
      (20 ≤ Real.sqrt (p.vx ^ 2 + p.vy ^ 2) →
        (Penguin.stick_to_ground p sl).speed_along_ground =
          Real.sqrt (p.vx ^ 2 + p.vy ^ 2)) :=
  ⟨rfl, rfl, rfl, rfl, fun hm =>
    max_eq_right (le_trans (by norm_num) hm)⟩

/-- C8 counterexample: an incoming velocity `(3, 4)` has magnitude 5,
but the landing sets `speed_along_ground` to the floor 20, so the
magnitude is not preserved as the claim states. -/
theorem C8_counterexample :
    (Penguin.stick_to_ground s34 0).speed_along_ground ≠
      Real.sqrt (s34.vx ^ 2 + s34.vy ^ 2) := by
  have hs : Real.sqrt (s34.vx ^ 2 + s34.vy ^ 2) = 5 := by
    have hv : (s34.vx ^ 2 + s34.vy ^ 2 : ℝ) = 5 ^ 2 := by norm_num [s34]
    rw [hv, Real.sqrt_sq (by norm_num : (0:ℝ) ≤ 5)]
  rw [Penguin.stick_speed, hs, max_eq_left (by norm_num)]
  norm_num

/-- C8 witness: an incoming velocity `(30, 40)` has magnitude 50,
above the floor, and the landing preserves it exactly. -/
theorem C8_landing_reprojection_witness :
    (Penguin.stick_to_ground s3040 0).speed_along_ground = 50 := by
  have hs : Real.sqrt (s3040.vx ^ 2 + s3040.vy ^ 2) = 50 := by
    have hv : (s3040.vx ^ 2 + s3040.vy ^ 2 : ℝ) = 50 ^ 2 := by norm_num [s3040]
    rw [hv, Real.sqrt_sq (by norm_num : (0:ℝ) ≤ 50)]
  have h := (C8_landing_reprojection s3040 0).2.2.2.2 (by rw [hs]; norm_num)
  rw [h, hs]

/-- C9 (amended): the simulator performs no validation of `dt`: a
negative `dt` is propagated into backwards integration — on flat
terrain a grounded actor's `world_x` strictly decreases — rather than
being rejected or clamped; clamping is the host's responsibility.
(Non-finite `dt` is an IEEE-float notion with no counterpart in the
real-number model.) -/
theorem C9_negative_dt_integrates_backwards (t : Terrain) (p : Penguin) (dt : ℝ)
    (h : Bool) (ht : t.Flat) (hg : p.on_ground = true) (hdt : dt < 0) :
    (Penguin.update t p dt h).world_x < p.world_x := by
  have hx : (Penguin.update t p dt h).world_x =
      p.world_x +
        Penguin.groundSpeed t p dt h * Real.cos (Real.arctan (t.slope p.world_x)) * dt := by
    rw [Penguin.update_of_ground t p dt h hg]
    unfold Penguin.update_ground
    split_ifs <;> simp
  have hgs : 0 < Penguin.groundSpeed t p dt h := by
    unfold Penguin.groundSpeed
    exact lt_of_lt_of_le (by norm_num) (le_max_left _ _)
  rw [hx, ht.slope_eq, Real.arctan_zero, Real.cos_zero, mul_one]
  have := mul_neg_of_pos_of_neg hgs hdt
  linarith

lemma sC9_world_x_neg : (Penguin.update flatT sC9 (-1) true).world_x = 93 := by
  rw [Penguin.update_of_ground flatT sC9 (-1) true rfl, Penguin.update_ground_of_holding]
  show sC9.world_x +
      Penguin.groundSpeed flatT sC9 (-1) true *
        Real.cos (Real.arctan (flatT.slope sC9.world_x)) * (-1) = 93
  rw [Penguin.groundSpeed_flat flatT_flat]
  have hv : sC9.speed_along_ground - sC9.speed_along_ground * GROUND_DRAG * (-1) = 27 := by
    norm_num [sC9, GROUND_DRAG]
  rw [hv, max_eq_right (by norm_num), flatT_flat.slope_eq, Real.arctan_zero, Real.cos_zero]
  norm_num [sC9]

lemma sC9_world_x_zero : (Penguin.update flatT sC9 0 true).world_x = 120 := by
  rw [Penguin.update_of_ground flatT sC9 0 true rfl, Penguin.update_ground_of_holding]
  show sC9.world_x +
      Penguin.groundSpeed flatT sC9 0 true *
        Real.cos (Real.arctan (flatT.slope sC9.world_x)) * 0 = 120
  norm_num [sC9]

/-- C9 counterexample: calling the update with `dt = -1` on a
concrete grounded state neither rejects the tick (the state changes)
nor clamps `dt` (the result differs from the `dt = 0` result): the
position is integrated backwards from 120 to 93. -/
theorem C9_counterexample :
    ¬ (Penguin.update flatT sC9 (-1) true = sC9 ∨
        Penguin.update flatT sC9 (-1) true = Penguin.update flatT sC9 0 true) := by
  intro hor
  rcases hor with he | he
  · have hx := congrArg Penguin.world_x he
    rw [sC9_world_x_neg] at hx
    norm_num [sC9] at hx
  · have hx := congrArg Penguin.world_x he
    rw [sC9_world_x_neg, sC9_world_x_zero] at hx
    norm_num at hx

/-- C9 witness: the concrete negative-`dt` tick strictly decreases
`world_x`. -/
theorem C9_negative_dt_integrates_backwards_witness :
    (Penguin.update flatT sC9 (-1) true).world_x < sC9.world_x :=
  C9_negative_dt_integrates_backwards flatT sC9 (-1) true flatT_flat rfl (by norm_num)

end
